/-
  Verification of the multi-account scheduling / request-routing layer of
  AIstudioProxyAPI against its natural-language specification.

  The definitions below are shallow embeddings of the Python source:
    * `src/config/model_fallback.py`      — quota & fallback registry
    * `src/multi_account_router.py`       — router strategies, /health, /v1/chat/completions
    * `src/multi_instance/request_router.py` and
      `src/multi_instance/instance_manager.py` — multi-instance request router
    * `src/multi_instance/smart_instance_manager.py` — email derivation from filenames

  Conventions:
    * Python `dict` (insertion-ordered) is embedded as an association list with
      `alookup` / `aupdate` mirroring `d[k]` / `d[k] = v`.
    * `time.time()` is passed explicitly as a `Nat` parameter `now`; the Python
      float comparison `now - t > 3600` over nonnegative reals coincides with
      the Nat comparison `3600 < now - t` (both are `t + 3600 < now`).
    * Python truthiness of an `Optional[float]` (`None` and `0.0` falsy) is
      embedded by `pyTruthyTime`.
-/
import Mathlib

namespace AIstudioProxy

/-! ### Association lists standing for Python dicts -/

/-- `d.get(k)` / `k in d` lookup on an insertion-ordered dict. -/
def alookup {α : Type} (l : List (String × α)) (k : String) : Option α :=
  match l with
  | [] => none
  | (k', v) :: rest => if k' = k then some v else alookup rest k

/-- `d[k] = v` on an insertion-ordered dict: replace in place if present,
    else append at the end (Python dict insertion order). -/
def aupdate {α : Type} (l : List (String × α)) (k : String) (v : α) :
    List (String × α) :=
  match l with
  | [] => [(k, v)]
  | (k', v') :: rest =>
      if k' = k then (k, v) :: rest else (k', v') :: aupdate rest k v

/-! ### `src/config/model_fallback.py` — quota & fallback registry -/

/-- `ModelStatus` dataclass (model_fallback.py lines 12-18). -/
structure ModelStatus where
  available : Bool := true
  quota_exceeded_time : Option Nat := none
  error_count : Nat := 0
  last_error_message : String := ""
deriving Repr, DecidableEq

/-- `InstanceModelStatus` dataclass (model_fallback.py lines 20-25);
    the `Lock` field is irrelevant to the sequential embedding. -/
structure InstanceModelStatus where
  instance_id : String
  model_status : List (String × ModelStatus) := []
deriving Repr, DecidableEq

/-- Python truthiness of the `Optional[float]` field `quota_exceeded_time`:
    `None` and `0.0` are falsy. -/
def pyTruthyTime : Option Nat → Bool
  | none => false
  | some t => t ≠ 0

/-- `InstanceModelStatus.mark_model_quota_exceeded` (model_fallback.py 27-39):
    insert a default `ModelStatus()` if the model is unseen, then set
    `available=False`, `quota_exceeded_time=time.time()`, bump `error_count`,
    store the message.  `now` stands for `time.time()`. -/
def mark_model_quota_exceeded (st : InstanceModelStatus) (model_id : String)
    (error_message : String) (now : Nat) : InstanceModelStatus :=
  let cur := (alookup st.model_status model_id).getD {}
  let cur := { cur with
    available := false
    quota_exceeded_time := some now
    error_count := cur.error_count + 1
    last_error_message := error_message }
  { st with model_status := aupdate st.model_status model_id cur }

/-- `InstanceModelStatus.is_model_available` (model_fallback.py 41-56):
    unseen model ⇒ `True`; otherwise, if unavailable and the stamp is truthy
    and `time.time() - stamp > 3600` (strict), restore `available=True`,
    clear the stamp and return `True`; else return the stored flag.
    Returns the flag together with the (possibly restored) state. -/
def is_model_available (st : InstanceModelStatus) (model_id : String)
    (now : Nat) : Bool × InstanceModelStatus :=
  match alookup st.model_status model_id with
  | none => (true, st)
  | some status =>
      if ¬ status.available ∧ pyTruthyTime status.quota_exceeded_time then
        if 3600 < now - (status.quota_exceeded_time.getD 0) then
          let status' := { status with
            available := true
            quota_exceeded_time := none }
          (true, { st with model_status := aupdate st.model_status model_id status' })
        else
          (status.available, st)
      else
        (status.available, st)

/-- `ModelFallbackManager.MODEL_FALLBACK_MAP` (model_fallback.py 66-85),
    the static per-model fallback chains. -/
def MODEL_FALLBACK_MAP : List (String × List String) :=
  [ ("gemini-2.5-pro-preview-03-25",
      ["gemini-2.0-flash-latest", "gemini-1.5-pro-latest", "gemini-1.5-flash-latest"]),
    ("gemini-2.5-flash-preview",
      ["gemini-2.0-flash-latest", "gemini-1.5-flash-latest", "gemini-1.5-pro-latest"]),
    ("gemini-2.0-flash-latest",
      ["gemini-1.5-flash-latest", "gemini-1.5-pro-latest"]),
    ("gemini-1.5-pro-latest",
      ["gemini-1.5-flash-latest", "gemini-2.0-flash-latest"]) ]

/-- `ModelFallbackManager` (model_fallback.py 87-89): per-instance statuses. -/
structure ModelFallbackManager where
  instance_statuses : List (String × InstanceModelStatus) := []
deriving Repr, DecidableEq

/-- `ModelFallbackManager.get_or_create_instance_status` (model_fallback.py 91-96). -/
def get_or_create_instance_status (mgr : ModelFallbackManager)
    (instance_id : String) : InstanceModelStatus × ModelFallbackManager :=
  match alookup mgr.instance_statuses instance_id with
  | some st => (st, mgr)
  | none =>
      let st : InstanceModelStatus := { instance_id := instance_id }
      (st, { mgr with
        instance_statuses := mgr.instance_statuses ++ [(instance_id, st)] })

/-- The fallback-chain walk inside `get_fallback_model` (model_fallback.py
    120-126): first chain entry whose `is_model_available` is true, threading
    the (possibly lazily restored) instance state. -/
def walk_fallback_chain (st : InstanceModelStatus) (chain : List String)
    (now : Nat) : Option String × InstanceModelStatus :=
  match chain with
  | [] => (none, st)
  | m :: rest =>
      let r := is_model_available st m now
      if r.1 then (some m, r.2) else walk_fallback_chain r.2 rest now

/-- `ModelFallbackManager.get_fallback_model` (model_fallback.py 103-128):
    return the requested model if available for that instance, else the first
    available model of its static fallback chain, else `None`. -/
def get_fallback_model (mgr : ModelFallbackManager) (instance_id : String)
    (original_model : String) (now : Nat) :
    Option String × ModelFallbackManager :=
  let r0 := get_or_create_instance_status mgr instance_id
  let st := r0.1
  let mgr := r0.2
  let r1 := is_model_available st original_model now
  if r1.1 then
    (some original_model,
     { mgr with instance_statuses := aupdate mgr.instance_statuses instance_id r1.2 })
  else
    let chain := (alookup MODEL_FALLBACK_MAP original_model).getD []
    let r2 := walk_fallback_chain r1.2 chain now
    (r2.1,
     { mgr with instance_statuses := aupdate mgr.instance_statuses instance_id r2.2 })

/-! ### `src/multi_account_router.py` — router data model and strategies -/

/-- `BackendInstance` dataclass (multi_account_router.py 25-37).
    `current_concurrent` is a Python `int` and may in principle go negative,
    hence `Int`. -/
structure BackendInstance where
  id : String
  port : Nat
  weight : Nat
  enabled : Bool
  max_concurrent : Int
  current_concurrent : Int := 0
  status : String := "unknown"
  last_heartbeat : Option Nat := none
  total_requests : Nat := 0
  failed_requests : Nat := 0
deriving Repr, DecidableEq, Inhabited

/-- The availability filter shared by all three strategies
    (multi_account_router.py 61-65, 81-85, 111-115):
    `enabled and status == "healthy" and current_concurrent < max_concurrent`. -/
def instAvailable (i : BackendInstance) : Bool :=
  i.enabled && i.status == "healthy" && decide (i.current_concurrent < i.max_concurrent)

/-- `RoundRobinStrategy.get_instance` (multi_account_router.py 58-73):
    filter to available instances, pick `available[index % len(available)]`,
    bump the index.  When nothing is available the index is left alone and no
    instance is returned.  Returns (chosen instance, new index). -/
def roundRobinGetInstance (instances : List BackendInstance) (index : Nat) :
    Option BackendInstance × Nat :=
  let available := instances.filter instAvailable
  match available with
  | [] => (none, index)
  | _ => (available[index % available.length]?, index + 1)

/-- Health body of `GET /health` (multi_account_router.py 229-242). -/
structure HealthBody where
  status : String
  total : Nat
  healthy : Nat
  unhealthy : Nat
deriving Repr, DecidableEq

/-- Number of instances whose `status` is `"healthy"`
    (multi_account_router.py 232). -/
def healthyCount (instances : List BackendInstance) : Nat :=
  (instances.filter (fun i => i.status == "healthy")).length

/-- `GET /health` handler (multi_account_router.py 229-242).  The handler
    returns a plain dict, so FastAPI always replies with HTTP status 200;
    the body's `status` field reports `"healthy"`/`"unhealthy"`. -/
def health_check (instances : List BackendInstance) : Nat × HealthBody :=
  let healthy_count := healthyCount instances
  let total_count := instances.length
  (200,
   { status := if healthy_count > 0 then "healthy" else "unhealthy"
     total := total_count
     healthy := healthy_count
     unhealthy := total_count - healthy_count })

/-! ### `POST /v1/chat/completions` concurrency accounting as a step relation

The handler (multi_account_router.py 269-334) increments the chosen
instance's `current_concurrent` (and `total_requests`) immediately after the
round-robin selection and decrements it exactly once on each completion path:
when a buffered response finishes (line 323), when the streamed body is closed
(`finally`, line 313), or when forwarding raises (line 331, which also bumps
`failed_requests`).  The request lifecycle is embedded as a step relation on a
router state; an in-flight request is a token naming the index of the instance
it was dispatched to, and each completion path consumes one token. -/

/-- Mutable router state: the backend instances (in registration order), the
    round-robin index, and one token per in-flight forwarded request. -/
structure RouterState where
  instances : List BackendInstance
  rr_index : Nat
  inflight : List Nat
deriving Repr, DecidableEq

/-- Replace the element at position `i` by `f` of it (a Python attribute
    mutation on the shared `BackendInstance` object). -/
def listModify {α : Type} (l : List α) (i : Nat) (f : α → α) : List α :=
  match l, i with
  | [], _ => []
  | x :: rest, 0 => f x :: rest
  | x :: rest, n + 1 => x :: listModify rest n f

/-- Indices of instances passing the strategy's availability filter; filtering
    the index list is the same as filtering the instance list, so this is
    `RoundRobinStrategy.get_instance`'s `available` list by position. -/
def eligIndices (s : RouterState) : List Nat :=
  (List.range s.instances.length).filter
    (fun i => match s.instances[i]? with
              | some inst => instAvailable inst
              | none => false)

/-- Events of the `/v1/chat/completions` lifecycle. -/
inductive RouterEvent where
  /-- A request arrives and the round-robin strategy runs; on success the
      chosen instance's counters are bumped *before* forwarding. -/
  | dispatch : RouterEvent
  /-- A buffered (non-stream) response finished for a request in flight at
      instance `i` (line 323). -/
  | finishBuffered (i : Nat) : RouterEvent
  /-- The streamed body of a request in flight at instance `i` was closed
      (generator `finally`, line 313). -/
  | finishStream (i : Nat) : RouterEvent
  /-- Forwarding a request in flight at instance `i` raised (line 331). -/
  | forwardError (i : Nat) : RouterEvent
  /-- The health-check loop updated instance `i`'s status
      (multi_account_router.py 366-388). -/
  | probeResult (i : Nat) (st : String) : RouterEvent
deriving Repr, DecidableEq

/-- One completion path: consume an in-flight token of instance `i` and
    decrement its `current_concurrent`; the error path also bumps
    `failed_requests`. -/
def completeAt (s : RouterState) (i : Nat) (failed : Bool) : RouterState :=
  if i ∈ s.inflight then
    { s with
      instances := listModify s.instances i (fun inst =>
        { inst with
          current_concurrent := inst.current_concurrent - 1
          failed_requests := inst.failed_requests + (if failed then 1 else 0) })
      inflight := s.inflight.erase i }
  else s

/-- The step function of the embedded lifecycle. -/
def routerStep (s : RouterState) (e : RouterEvent) : RouterState :=
  match e with
  | .dispatch =>
      let idxs := eligIndices s
      match idxs[s.rr_index % idxs.length]? with
      | none => s
      | some j =>
          { s with
            instances := listModify s.instances j (fun inst =>
              { inst with
                current_concurrent := inst.current_concurrent + 1
                total_requests := inst.total_requests + 1 })
            rr_index := s.rr_index + 1
            inflight := j :: s.inflight }
  | .finishBuffered i => completeAt s i false
  | .finishStream i => completeAt s i false
  | .forwardError i => completeAt s i true
  | .probeResult i st =>
      { s with instances := (listModify s.instances i
          (fun inst => { inst with status := st })) }

/-- Run a sequence of lifecycle events. -/
def routerRun (s : RouterState) (es : List RouterEvent) : RouterState :=
  es.foldl routerStep s

/-- The instance at position `j` (total, for stating invariants). -/
def instAt (s : RouterState) (j : Nat) : BackendInstance :=
  (s.instances[j]?).getD default

/-- Router invariant: every in-flight token names a real instance, each
    instance's `current_concurrent` equals its number of in-flight requests,
    and it never exceeds `max_concurrent`. -/
def RouterInv (s : RouterState) : Prop :=
  (∀ j ∈ s.inflight, j < s.instances.length) ∧
  (∀ j, j < s.instances.length →
    (instAt s j).current_concurrent = (s.inflight.count j : Int) ∧
    (instAt s j).current_concurrent ≤ (instAt s j).max_concurrent)

/-! ### MD5 (for `HashStrategy`)

`HashStrategy.get_instance` computes
`int(hashlib.md5(api_key.encode()).hexdigest(), 16)` — the 128-bit MD5 digest
read as a big-endian hexadecimal number.  MD5 is embedded over `Nat` with
explicit `% 2^32`. -/

/-- Truncate to 32 bits. -/
def u32 (x : Nat) : Nat := x % 4294967296

/-- 32-bit left rotation (argument assumed `< 2^32`). -/
def rotl32 (x c : Nat) : Nat := u32 (x <<< c) ||| (x >>> (32 - c))

/-- The 64 MD5 round constants `⌊2³² · |sin (i+1)|⌋`. -/
def md5K : List Nat :=
  [3614090360, 3905402710, 606105819, 3250441966, 4118548399, 1200080426,
   2821735955, 4249261313, 1770035416, 2336552879, 4294925233, 2304563134,
   1804603682, 4254626195, 2792965006, 1236535329, 4129170786, 3225465664,
   643717713, 3921069994, 3593408605, 38016083, 3634488961, 3889429448,
   568446438, 3275163606, 4107603335, 1163531501, 2850285829, 4243563512,
   1735328473, 2368359562, 4294588738, 2272392833, 1839030562, 4259657740,
   2763975236, 1272893353, 4139469664, 3200236656, 681279174, 3936430074,
   3572445317, 76029189, 3654602809, 3873151461, 530742520, 3299628645,
   4096336452, 1126891415, 2878612391, 4237533241, 1700485571, 2399980690,
   4293915773, 2240044497, 1873313359, 4264355552, 2734768916, 1309151649,
   4149444226, 3174756917, 718787259, 3951481745]

/-- The 64 MD5 per-round shift amounts. -/
def md5S : List Nat :=
  [7, 12, 17, 22, 7, 12, 17, 22, 7, 12, 17, 22, 7, 12, 17, 22,
   5, 9, 14, 20, 5, 9, 14, 20, 5, 9, 14, 20, 5, 9, 14, 20,
   4, 11, 16, 23, 4, 11, 16, 23, 4, 11, 16, 23, 4, 11, 16, 23,
   6, 10, 15, 21, 6, 10, 15, 21, 6, 10, 15, 21, 6, 10, 15, 21]

/-- The MD5 nonlinear functions (32-bit complement via xor with the mask). -/
def md5F (i b c d : Nat) : Nat :=
  if i < 16 then (b &&& c) ||| ((b ^^^ 4294967295) &&& d)
  else if i < 32 then (d &&& b) ||| ((d ^^^ 4294967295) &&& c)
  else if i < 48 then b ^^^ c ^^^ d
  else c ^^^ (b ||| (d ^^^ 4294967295))

/-- The MD5 message-word index schedule. -/
def md5G (i : Nat) : Nat :=
  if i < 16 then i
  else if i < 32 then (5 * i + 1) % 16
  else if i < 48 then (3 * i + 5) % 16
  else (7 * i) % 16

/-- `count` little-endian bytes of `n`. -/
def leBytes (n count : Nat) : List Nat :=
  match count with
  | 0 => []
  | c + 1 => (n % 256) :: leBytes (n / 256) c

/-- MD5 padding: a `0x80` byte, zeros to 56 mod 64, then the bit length as
    eight little-endian bytes. -/
def md5Pad (msg : List Nat) : List Nat :=
  msg ++ [128] ++ List.replicate ((56 + 64 - ((msg.length + 1) % 64)) % 64) 0
      ++ leBytes ((msg.length * 8) % 18446744073709551616) 8

/-- A little-endian 32-bit word from up to four bytes. -/
def leWord (bytes : List Nat) : Nat :=
  bytes.foldr (fun b acc => acc * 256 + b) 0

/-- The sixteen 32-bit words of one 64-byte block. -/
def blockWords (block : List Nat) : List Nat :=
  (List.range 16).map (fun j => leWord ((block.drop (4 * j)).take 4))

/-- Split into 64-byte chunks (`fuel` bounds recursion; the length suffices). -/
def chunks64 (fuel : Nat) (l : List Nat) : List (List Nat) :=
  match fuel with
  | 0 => []
  | f + 1 =>
      match l with
      | [] => []
      | _ => l.take 64 :: chunks64 f (l.drop 64)

/-- The four 32-bit MD5 registers. -/
structure MD5State where
  a : Nat
  b : Nat
  c : Nat
  d : Nat
deriving Repr, DecidableEq

/-- One MD5 round on the registers, given the block words `M`. -/
def md5Round (M : List Nat) (st : MD5State) (i : Nat) : MD5State :=
  let f := md5F i st.b st.c st.d
  let tmp := u32 (st.a + f + md5K.getD i 0 + M.getD (md5G i) 0)
  let nb := u32 (st.b + rotl32 tmp (md5S.getD i 0))
  ⟨st.d, nb, st.b, st.c⟩

/-- Process one 64-byte block: 64 rounds, then add to the incoming state. -/
def md5ProcessBlock (st : MD5State) (block : List Nat) : MD5State :=
  let M := blockWords block
  let r := (List.range 64).foldl (md5Round M) st
  ⟨u32 (st.a + r.a), u32 (st.b + r.b), u32 (st.c + r.c), u32 (st.d + r.d)⟩

/-- The MD5 initial state. -/
def md5Init : MD5State := ⟨1732584193, 4023233417, 2562383102, 271733878⟩

/-- The 16 digest bytes of a byte message. -/
def md5Digest (msg : List Nat) : List Nat :=
  let padded := md5Pad msg
  let st := (chunks64 padded.length padded).foldl md5ProcessBlock md5Init
  leBytes st.a 4 ++ leBytes st.b 4 ++ leBytes st.c 4 ++ leBytes st.d 4

/-- UTF-8 encoding of one character. -/
def utf8Encode (c : Char) : List Nat :=
  let n := c.toNat
  if n < 128 then [n]
  else if n < 2048 then
    [192 ||| (n >>> 6), 128 ||| (n &&& 63)]
  else if n < 65536 then
    [224 ||| (n >>> 12), 128 ||| ((n >>> 6) &&& 63), 128 ||| (n &&& 63)]
  else
    [240 ||| (n >>> 18), 128 ||| ((n >>> 12) &&& 63),
     128 ||| ((n >>> 6) &&& 63), 128 ||| (n &&& 63)]

/-- `s.encode()`: the UTF-8 bytes of a string. -/
def strBytes (s : String) : List Nat :=
  s.data.foldr (fun c acc => utf8Encode c ++ acc) []

/-- `int(hashlib.md5(s.encode()).hexdigest(), 16)`: the digest bytes read as a
    big-endian number. -/
def md5HexInt (s : String) : Nat :=
  (md5Digest (strBytes s)).foldl (fun acc b => acc * 256 + b) 0

/-! ### `HashStrategy` (multi_account_router.py 106-147) -/

/-- The request headers and client address consulted by `HashStrategy`.
    A missing `Authorization` header reads as `""` via
    `headers.get("Authorization", "")`; `X-API-Key` reads as `None` when
    missing.  `client_ip` is carried for stating the spec's claimed fallback
    (the code never reads it). -/
structure HttpRequest where
  authorization : Option String := none
  x_api_key : Option String := none
  client_ip : String := ""
deriving Repr, DecidableEq

/-- `HashStrategy._get_api_key` (multi_account_router.py 135-147): the bearer
    token when the `Authorization` header starts with `"Bearer "`, else the
    `X-API-Key` header when present and truthy (non-empty), else `None`. -/
def get_api_key (r : HttpRequest) : Option String :=
  let auth := r.authorization.getD ""
  if "Bearer ".data.isPrefixOf auth.data then
    some (String.mk (auth.data.drop 7))
  else
    match r.x_api_key with
    | some k => if k.data.isEmpty then none else some k
    | none => none

/-- `HashStrategy.get_instance` (multi_account_router.py 109-133): filter to
    available instances; compute the key and recheck it for truthiness
    (`if not api_key:` line 126 — `None` *and* the empty string, e.g. from a
    bare `"Bearer "` header, are falsy): with a truthy key pick
    `available[int(md5(key).hexdigest(), 16) % len(available)]`; otherwise
    delegate to a *fresh* `RoundRobinStrategy(available)` (index 0). -/
def hashGetInstance (r : HttpRequest) (instances : List BackendInstance) :
    Option BackendInstance :=
  let available := instances.filter instAvailable
  match available with
  | [] => none
  | _ =>
      match get_api_key r with
      | none => (roundRobinGetInstance available 0).1
      | some key =>
          if key.data.isEmpty then (roundRobinGetInstance available 0).1
          else
            let hash_value := md5HexInt key
            available[hash_value % available.length]?

/-! ### Python string primitives (kernel-computable, over `List Char`) -/

/-- Python's `pattern in s` substring test. -/
def hasSubstr (l pat : List Char) : Bool :=
  match l with
  | [] => pat.isEmpty
  | _ :: rest => pat.isPrefixOf l || hasSubstr rest pat

/-- Python's `s.replace(pattern, replacement)` (all non-overlapping
    occurrences, left to right); `fuel` bounds the scan, `l.length` suffices. -/
def pyReplaceAux (fuel : Nat) (l pat rep : List Char) : List Char :=
  match fuel, l with
  | 0, l => l
  | _ + 1, [] => []
  | fuel + 1, x :: rest =>
      if pat.isPrefixOf (x :: rest) && !pat.isEmpty then
        rep ++ pyReplaceAux fuel ((x :: rest).drop pat.length) pat rep
      else
        x :: pyReplaceAux fuel rest pat rep

/-- Python's `s.replace(pattern, replacement)` on `String`. -/
def pyReplace (s pat rep : String) : String :=
  String.mk (pyReplaceAux s.data.length s.data pat.data rep.data)

/-- Python's `s.split(sep)` for a one-character separator. -/
def splitChar (l : List Char) (c : Char) : List (List Char) :=
  match l with
  | [] => [[]]
  | x :: rest =>
      match splitChar rest c with
      | [] => [[]]
      | grp :: grps => if x = c then [] :: grp :: grps else (x :: grp) :: grps

/-- Python's `list.index(x)`: first index of `x` (callers guard existence;
    out-of-range index returned when absent, where Python would raise). -/
def pyIndexOfTok (l : List (List Char)) (x : List Char) : Nat :=
  match l with
  | [] => 0
  | y :: rest => if y = x then 0 else pyIndexOfTok rest x + 1

/-- Python's `token.isdigit()` (restricted to ASCII digits). -/
def pyIsDigitTok (t : List Char) : Bool :=
  !t.isEmpty && t.all Char.isDigit

/-! ### `_extract_email_from_filename`
    (`src/multi_instance/smart_instance_manager.py` 154-180 and the identical
    `src/multi_instance/enhanced/instance_manager.py` 149-173) -/

/-- `_extract_email_from_filename`: strip every `".json"` occurrence, and if
    the name contains `"_at_"`, split on `'_'`, join the tokens before the
    first `"at"` token with `'.'` (user) and the tokens after it with `'.'`
    (domain), dropping **every** purely-numeric domain token; else if the name
    contains `'@'` return the part before the first `'_'`; else the name. -/
def extract_email_from_filename (filename : String) : String :=
  let name := pyReplace filename ".json" ""
  if hasSubstr name.data "_at_".data then
    let parts := splitChar name.data '_'
    let at_index := pyIndexOfTok parts "at".data
    let user_parts := parts.take at_index
    let domain_parts := (parts.drop (at_index + 1)).filter (fun p => !pyIsDigitTok p)
    let user := String.intercalate "." (user_parts.map String.mk)
    let domain := String.intercalate "." (domain_parts.map String.mk)
    user ++ "@" ++ domain
  else if name.data.contains '@' then
    String.mk ((splitChar name.data '_').headD [])
  else
    name

/-- The e-mail rule exactly as the spec's sentence states it (for comparison
    with `extract_email_from_filename`): same split and joins, but discarding
    only **trailing** numeric tokens of the domain part. -/
def extract_email_spec_rule (filename : String) : String :=
  let name := pyReplace filename ".json" ""
  let parts := splitChar name.data '_'
  let at_index := pyIndexOfTok parts "at".data
  let user_parts := parts.take at_index
  let domain_parts := ((parts.drop (at_index + 1)).reverse.dropWhile pyIsDigitTok).reverse
  let user := String.intercalate "." (user_parts.map String.mk)
  let domain := String.intercalate "." (domain_parts.map String.mk)
  user ++ "@" ++ domain

/-- The amended rule: like `extract_email_spec_rule` but discarding **all**
    purely-numeric domain tokens, not only trailing ones. -/
def extract_email_amended_rule (filename : String) : String :=
  let name := pyReplace filename ".json" ""
  let parts := splitChar name.data '_'
  let at_index := pyIndexOfTok parts "at".data
  let user_parts := parts.take at_index
  let domain_parts := (parts.drop (at_index + 1)).filter (fun p => !pyIsDigitTok p)
  let user := String.intercalate "." (user_parts.map String.mk)
  let domain := String.intercalate "." (domain_parts.map String.mk)
  user ++ "@" ++ domain

/-! ### JSON values, `json.loads` and `json.dumps`

The non-stream branch of `chat_completions` (multi_account_router.py 320-328)
does `response_data = await resp.json()` and returns
`JSONResponse(content=response_data, status_code=resp.status, ...)`, i.e. the
client body is `json.dumps(json.loads(worker_body))` with compact separators
`(",", ":")` and `ensure_ascii=False`.  The JSON fragment modeled here has
integer numbers (floats are out of the model: the parser rejects them, which
only narrows the hypotheses of the theorems below). -/

/-- JSON values (strings as character lists). -/
inductive JVal where
  | jnull
  | jbool (b : Bool)
  | jnum (n : Int)
  | jstr (s : List Char)
  | jarr (xs : List JVal)
  | jobj (kvs : List (List Char × JVal))
deriving Repr

/-- Lowercase hexadecimal digit. -/
def hexDigitChar (n : Nat) : Char :=
  if n < 10 then Char.ofNat (48 + n) else Char.ofNat (87 + n)

/-- `json.dumps` escaping of one character (`ensure_ascii=False`). -/
def escapeJChar (c : Char) : List Char :=
  if c = '"' then ['\\', '"']
  else if c = '\\' then ['\\', '\\']
  else if c = '\n' then ['\\', 'n']
  else if c = '\t' then ['\\', 't']
  else if c = '\r' then ['\\', 'r']
  else if c.toNat = 8 then ['\\', 'b']
  else if c.toNat = 12 then ['\\', 'f']
  else if c.toNat < 32 then
    ['\\', 'u', '0', '0', hexDigitChar (c.toNat / 16), hexDigitChar (c.toNat % 16)]
  else [c]

/-- Escape a JSON string body. -/
def escapeJStr (s : List Char) : List Char :=
  s.foldr (fun c acc => escapeJChar c ++ acc) []

mutual

/-- `json.dumps` with separators `(",", ":")` — the `JSONResponse` renderer. -/
def json_dump_val : JVal → List Char
  | .jnull => "null".data
  | .jbool true => "true".data
  | .jbool false => "false".data
  | .jnum n => (toString n).data
  | .jstr s => '"' :: (escapeJStr s ++ ['"'])
  | .jarr xs => '[' :: (json_dump_arr xs ++ [']'])
  | .jobj kvs => Char.ofNat 123 :: (json_dump_obj kvs ++ [Char.ofNat 125])

/-- Array elements joined by `","`. -/
def json_dump_arr : List JVal → List Char
  | [] => []
  | [x] => json_dump_val x
  | x :: y :: rest => json_dump_val x ++ ',' :: json_dump_arr (y :: rest)

/-- Object entries `"key":value` joined by `","`. -/
def json_dump_obj : List (List Char × JVal) → List Char
  | [] => []
  | [(k, v)] => '"' :: (escapeJStr k ++ ['"', ':'] ++ json_dump_val v)
  | (k, v) :: p :: rest =>
      '"' :: (escapeJStr k ++ ['"', ':'] ++ json_dump_val v) ++
        ',' :: json_dump_obj (p :: rest)

end

/-- `json.dumps` on `String`. -/
def json_dumps (v : JVal) : String := String.mk (json_dump_val v)

/-- Skip JSON whitespace (space, tab, newline, carriage return). -/
def skipWs : List Char → List Char
  | [] => []
  | c :: rest =>
      if c = ' ' ∨ c = '\t' ∨ c = '\n' ∨ c = '\r' then skipWs rest else c :: rest

/-- Parse the remainder of a JSON string literal (after the opening quote):
    plain characters and the short escapes; `\\uXXXX` and raw control
    characters are rejected (outside the modeled fragment / invalid JSON). -/
def parseStrChars : List Char → Option (List Char × List Char)
  | [] => none
  | '"' :: rest => some ([], rest)
  | '\\' :: c :: rest =>
      let esc : Option Char :=
        if c = '"' then some '"'
        else if c = '\\' then some '\\'
        else if c = '/' then some '/'
        else if c = 'n' then some '\n'
        else if c = 't' then some '\t'
        else if c = 'r' then some '\r'
        else if c = 'b' then some (Char.ofNat 8)
        else if c = 'f' then some (Char.ofNat 12)
        else none
      match esc with
      | none => none
      | some e =>
          match parseStrChars rest with
          | some (s, r) => some (e :: s, r)
          | none => none
  | '\\' :: [] => none
  | c :: rest =>
      if c.toNat < 32 then none
      else
        match parseStrChars rest with
        | some (s, r) => some (c :: s, r)
        | none => none

/-- Longest digit prefix. -/
def takeDigits : List Char → List Char × List Char
  | [] => ([], [])
  | c :: rest =>
      if c.isDigit then
        let (d, r) := takeDigits rest
        (c :: d, r)
      else ([], c :: rest)

/-- Decimal digits to `Nat`. -/
def digitsToNat (ds : List Char) : Nat :=
  ds.foldl (fun a c => a * 10 + (c.toNat - 48)) 0

/-- Parse an unsigned JSON integer: no leading zero, and a following `.`/`e`
    (a float) is outside the modeled fragment. -/
def parseNumNat (l : List Char) : Option (Nat × List Char) :=
  let p := takeDigits l
  if p.1.isEmpty then none
  else if 1 < p.1.length ∧ p.1.headD '1' = '0' then none
  else
    match p.2 with
    | c :: _ =>
        if c = '.' ∨ c = 'e' ∨ c = 'E' then none else some (digitsToNat p.1, p.2)
    | [] => some (digitsToNat p.1, p.2)

/-- Parse a JSON integer with optional sign. -/
def parseNum (l : List Char) : Option (JVal × List Char) :=
  match l with
  | '-' :: rest =>
      match parseNumNat rest with
      | some (n, r) => some (.jnum (-(n : Int)), r)
      | none => none
  | _ =>
      match parseNumNat l with
      | some (n, r) => some (.jnum (n : Int), r)
      | none => none

/-- Python-dict assignment used while building an object: replace in place on
    a duplicate key, else append (last value wins, first position kept). -/
def jdictSet (l : List (List Char × JVal)) (k : List Char) (v : JVal) :
    List (List Char × JVal) :=
  match l with
  | [] => [(k, v)]
  | (k', v') :: rest =>
      if k' = k then (k, v) :: rest else (k', v') :: jdictSet rest k v

mutual

/-- Recursive-descent JSON value parser; `fuel` bounds nesting (the input
    length suffices since each level consumes at least one character). -/
def parseVal : Nat → List Char → Option (JVal × List Char)
  | 0, _ => none
  | fuel + 1, input =>
      match skipWs input with
      | [] => none
      | c :: rest =>
          if "null".data.isPrefixOf (c :: rest) then some (.jnull, (c :: rest).drop 4)
          else if "true".data.isPrefixOf (c :: rest) then some (.jbool true, (c :: rest).drop 4)
          else if "false".data.isPrefixOf (c :: rest) then some (.jbool false, (c :: rest).drop 5)
          else if c = '"' then
            match parseStrChars rest with
            | some (s, r) => some (.jstr s, r)
            | none => none
          else if c = '[' then
            match skipWs rest with
            | ']' :: r2 => some (.jarr [], r2)
            | l2 =>
                match parseArrItems fuel l2 with
                | some (xs, r2) => some (.jarr xs, r2)
                | none => none
          else if c = Char.ofNat 123 then
            match skipWs rest with
            | [] => none
            | c2 :: r2 =>
                if c2 = Char.ofNat 125 then some (.jobj [], r2)
                else
                  match parseObjItems fuel (c2 :: r2) with
                  | some (kvs, r3) =>
                      some (.jobj (kvs.foldl (fun acc kv => jdictSet acc kv.1 kv.2) []), r3)
                  | none => none
          else parseNum (c :: rest)

/-- One-or-more comma-separated array items up to the closing `]`. -/
def parseArrItems : Nat → List Char → Option (List JVal × List Char)
  | 0, _ => none
  | fuel + 1, l =>
      match parseVal fuel l with
      | none => none
      | some (v, r) =>
          match skipWs r with
          | ',' :: r2 =>
              match parseArrItems fuel r2 with
              | some (vs, r3) => some (v :: vs, r3)
              | none => none
          | ']' :: r2 => some ([v], r2)
          | _ => none

/-- One-or-more `"key": value` object entries up to the closing brace. -/
def parseObjItems : Nat → List Char →
    Option (List (List Char × JVal) × List Char)
  | 0, _ => none
  | fuel + 1, l =>
      match skipWs l with
      | '"' :: rest =>
          match parseStrChars rest with
          | none => none
          | some (k, r) =>
              match skipWs r with
              | ':' :: r2 =>
                  match parseVal fuel r2 with
                  | none => none
                  | some (v, r3) =>
                      match skipWs r3 with
                      | ',' :: r4 =>
                          match parseObjItems fuel r4 with
                          | some (kvs, r5) => some ((k, v) :: kvs, r5)
                          | none => none
                      | c4 :: r4 =>
                          if c4 = Char.ofNat 125 then some ([(k, v)], r4) else none
                      | [] => none
              | _ => none
      | _ => none

end

/-- `json.loads`: parse a complete document (only whitespace may follow). -/
def json_loads (s : String) : Option JVal :=
  match parseVal (s.data.length + 1) s.data with
  | some (v, rest) => if (skipWs rest).isEmpty then some v else none
  | none => none

/-- The non-stream response path of `chat_completions`
    (multi_account_router.py 320-334): parse the worker body
    (`await resp.json()`), reply with the worker's status code and the
    re-serialized body (`JSONResponse`); a parse failure takes the exception
    path and becomes HTTP 500. -/
def forward_non_stream (status : Nat) (body : String) :
    Except Nat (Nat × String) :=
  match json_loads body with
  | some v => .ok (status, json_dumps v)
  | none => .error 500

/-! ### `src/multi_instance/request_router.py` and the instance manager it
    drives (`src/multi_instance/instance_manager.py`) -/

/-- `InstanceStatus` (instance_manager.py). -/
inductive MIStatus where
  | starting
  | ready
  | busy
  | error
  | stopped
deriving Repr, DecidableEq

/-- The per-instance runtime state read by the router (`InstanceState` plus
    the `max_concurrent_requests` of its config). -/
structure MIState where
  status : MIStatus
  active_requests : Nat := 0
  max_concurrent_requests : Nat := 1
  total_requests : Nat := 0
  current_model_id : Option String := none
deriving Repr, DecidableEq

/-- `MultiInstanceManager`: instances keyed by id (dict order). -/
structure MIManager where
  instances : List (String × MIState)
deriving Repr, DecidableEq

/-- `get_instance_state`. -/
def get_instance_state (mgr : MIManager) (iid : String) : Option MIState :=
  alookup mgr.instances iid

/-- `get_available_instances` (instance_manager.py 361-377, no exclusion):
    READY instances below their concurrency cap, in dict order. -/
def get_available_instances (mgr : MIManager) : List String :=
  (mgr.instances.filter (fun p =>
      decide (p.2.status = MIStatus.ready) &&
      decide (p.2.active_requests < p.2.max_concurrent_requests))).map Prod.fst

/-- `acquire_instance_lock` (instance_manager.py 468-492): fails for unknown,
    non-READY, or at-capacity instances; otherwise bumps `active_requests` and
    `total_requests` and marks the instance BUSY.  (The `asyncio.Lock` acquire
    never fails in the sequential embedding.) -/
def acquire_instance_lock (mgr : MIManager) (iid : String) : Bool × MIManager :=
  match alookup mgr.instances iid with
  | none => (false, mgr)
  | some st =>
      if st.status ≠ MIStatus.ready then (false, mgr)
      else if st.max_concurrent_requests ≤ st.active_requests then (false, mgr)
      else
        (true,
         { mgr with instances := (aupdate mgr.instances iid
             { st with
               active_requests := st.active_requests + 1
               total_requests := st.total_requests + 1
               status := MIStatus.busy }) })

/-- `RoutingStrategy` (request_router.py 17-24). -/
inductive MIRoutingStrategy where
  | round_robin
  | least_loaded
  | random
  | sticky_session
  | model_affinity
  | primary_instance
deriving Repr, DecidableEq

/-- `RequestContext` dataclass (request_router.py 26-38); note the field
    defaults `retry_count = 0` and `max_retries = 3`. -/
structure RequestContext where
  request_id : String
  instance_id : Option String
  model_id : Option String
  started_at : Nat
  client_ip : String
  user_agent : String
  routing_strategy : MIRoutingStrategy
  retry_count : Nat := 0
  max_retries : Nat := 3
deriving Repr, DecidableEq

/-- `_try_route_to_instance` (request_router.py 283-305): reject non-READY or
    model-unsupporting instances, else attempt the lock.  `modelAvail`
    stands for `model_manager.is_model_available_for_instance`. -/
def try_route_to_instance (mgr : MIManager) (modelAvail : String → String → Bool)
    (iid : String) (model_id : Option String) : Bool × MIManager :=
  match get_instance_state mgr iid with
  | none => (false, mgr)
  | some st =>
      if st.status ≠ MIStatus.ready then (false, mgr)
      else if (match model_id with
               | some m => !(modelAvail iid m)
               | none => false) then (false, mgr)
      else acquire_instance_lock mgr iid

/-- One step of `_select_instance_least_loaded`'s scan (request_router.py
    98-113): keep the strictly smallest
    `active_requests / max_concurrent_requests` (`float` embedded as `ℚ`;
    the initial `float('inf')` as `none`). -/
def leastLoadedStep (mgr : MIManager) (acc : Option String × Option ℚ)
    (iid : String) : Option String × Option ℚ :=
  match get_instance_state mgr iid with
  | none => acc
  | some st =>
      let load : ℚ := (st.active_requests : ℚ) / (st.max_concurrent_requests : ℚ)
      match acc.2 with
      | none => (some iid, some load)
      | some b => if load < b then (some iid, some load) else acc

/-- `_select_instance_least_loaded` (request_router.py 98-113): fold the
    strict-minimum scan over the candidates starting from
    `(None, float('inf'))`, then apply the
    `best_instance or available_instances[0]` fallback
    (Python falsy = `None` or `""`). -/
def select_instance_least_loaded (mgr : MIManager) (avail : List String) :
    Option String :=
  match avail with
  | [] => none
  | a :: rest =>
      let r := (a :: rest).foldl (leastLoadedStep mgr) (none, none)
      match r.1 with
      | some b => if b = "" then some a else some b
      | none => some a

/-- Outcome of `route_request`: the returned instance id, the manager state,
    and — as proof instrumentation — the instances handed to
    `_try_route_to_instance`, in call order. -/
structure RouteOutcome where
  result : Option String
  mgr : MIManager
  tried : List String
deriving Repr

/-- The failover loop of `route_request` (request_router.py 268-276): try
    every remaining available instance other than the selected one, in order,
    stopping at the first success. -/
def failover_loop (modelAvail : String → String → Bool) (model_id : Option String)
    (selected : String) : MIManager → List String → List String → RouteOutcome
  | mgr, [], tried => ⟨none, mgr, tried⟩
  | mgr, iid :: rest, tried =>
      if iid = selected then
        failover_loop modelAvail model_id selected mgr rest tried
      else
        let r := try_route_to_instance mgr modelAvail iid model_id
        if r.1 then ⟨some iid, r.2, tried ++ [iid]⟩
        else failover_loop modelAvail model_id selected r.2 rest (tried ++ [iid])

/-- `route_request` (request_router.py 195-281) with its default arguments
    (`session_id=None`, `strategy=None` ⇒ `LEAST_LOADED`,
    `enable_failover=True`): optionally try a preferred instance, filter the
    available instances by model support, select by least load, try the
    selection, and on failure fail over through every other candidate.
    The `retry_count`/`max_retries` fields of the request context are never
    consulted. -/
def route_request (mgr : MIManager) (modelAvail : String → String → Bool)
    (model_id : Option String) (preferred_instance : Option String) :
    RouteOutcome :=
  let step0 : Option String × MIManager × List String :=
    match preferred_instance with
    | some p =>
        let r := try_route_to_instance mgr modelAvail p model_id
        if r.1 then (some p, r.2, [p]) else (none, r.2, [p])
    | none => (none, mgr, [])
  match step0.1 with
  | some p => ⟨some p, step0.2.1, step0.2.2⟩
  | none =>
      let mgr1 := step0.2.1
      let tried0 := step0.2.2
      match get_available_instances mgr1 with
      | [] => ⟨none, mgr1, tried0⟩
      | a :: as =>
          let filtered := match model_id with
            | some m => (a :: as).filter (fun iid => modelAvail iid m)
            | none => a :: as
          if model_id.isSome && filtered.isEmpty then ⟨none, mgr1, tried0⟩
          else
            match select_instance_least_loaded mgr1 filtered with
            | none => ⟨none, mgr1, tried0⟩
            | some selected =>
                let r := try_route_to_instance mgr1 modelAvail selected model_id
                if r.1 then ⟨some selected, r.2, tried0 ++ [selected]⟩
                else failover_loop modelAvail model_id selected r.2 filtered
                       (tried0 ++ [selected])

/-! ## Theorems -/

/-! ### Association-list helper lemmas -/

theorem alookup_aupdate_self {α : Type} (l : List (String × α)) (k : String) (v : α) :
    alookup (aupdate l k v) k = some v := by
  induction l with
  | nil => simp [aupdate, alookup]
  | cons hd tl ih =>
      obtain ⟨k', v'⟩ := hd
      by_cases h : k' = k <;> simp [aupdate, alookup, h, ih]

theorem alookup_aupdate_ne {α : Type} (l : List (String × α)) (k k' : String)
    (v : α) (h : k' ≠ k) : alookup (aupdate l k v) k' = alookup l k' := by
  induction l with
  | nil =>
      have h' : ¬ k = k' := fun hh => h hh.symm
      simp [aupdate, alookup, h']
  | cons hd tl ih =>
      obtain ⟨k0, v0⟩ := hd
      by_cases h0 : k0 = k
      · subst h0
        have h' : ¬ k0 = k' := fun hh => h hh.symm
        simp [aupdate, alookup, h']
      · simp [aupdate, alookup, h0, ih]

/-! ### Quota registry lemmas -/

/-- If `is_model_available` answers `false`, it has not modified the state
    (the lazy restore happens only on the `true` answer). -/
theorem is_model_available_false_state (st : InstanceModelStatus) (m : String)
    (now : Nat) (h : (is_model_available st m now).1 = false) :
    (is_model_available st m now).2 = st := by
  unfold is_model_available at h ⊢
  cases hl : alookup st.model_status m with
  | none => simp [hl] at h
  | some status =>
      simp only [hl] at h ⊢
      by_cases h1 : ¬ status.available = true ∧ pyTruthyTime status.quota_exceeded_time = true
      · rw [if_pos h1] at h ⊢
        by_cases h2 : 3600 < now - status.quota_exceeded_time.getD 0
        · rw [if_pos h2] at h
          simp at h
        · rw [if_neg h2]
      · rw [if_neg h1]

/-- C10: the lazy cooldown restore inside `is_model_available` touches only the
    queried model's `available` flag and `quota_exceeded_time` stamp: every
    other model's entry is untouched, the instance id is untouched, and the
    queried model's `error_count` / `last_error_message` are preserved; the
    final state is either unchanged or exactly the stored entry with
    `available := true` and the stamp cleared. -/
theorem is_model_available_frame (st : InstanceModelStatus) (m : String) (now : Nat) :
    (∀ m', m' ≠ m →
        alookup ((is_model_available st m now).2).model_status m'
          = alookup st.model_status m') ∧
    ((is_model_available st m now).2).instance_id = st.instance_id ∧
    ((alookup ((is_model_available st m now).2).model_status m).map
        (fun s => (s.error_count, s.last_error_message))
      = (alookup st.model_status m).map
        (fun s => (s.error_count, s.last_error_message))) ∧
    ((is_model_available st m now).2 = st ∨
      ∃ s, alookup st.model_status m = some s ∧
        (is_model_available st m now).2 =
          { st with model_status := (aupdate st.model_status m
              { s with available := true, quota_exceeded_time := none }) }) := by
  unfold is_model_available
  cases hl : alookup st.model_status m with
  | none => simp [hl]
  | some status =>
      simp only [hl]
      by_cases h1 : ¬ status.available = true ∧ pyTruthyTime status.quota_exceeded_time = true
      · rw [if_pos h1]
        by_cases h2 : 3600 < now - status.quota_exceeded_time.getD 0
        · rw [if_pos h2]
          refine ⟨?_, rfl, ?_, .inr ⟨status, rfl, rfl⟩⟩
          · intro m' hm'
            exact alookup_aupdate_ne _ _ _ _ hm'
          · simp [alookup_aupdate_self, hl]
        · rw [if_neg h2]
          exact ⟨fun _ _ => rfl, rfl, by simp [hl], .inl rfl⟩
      · rw [if_neg h1]
        exact ⟨fun _ _ => rfl, rfl, by simp [hl], .inl rfl⟩

/-- C9: a (worker, model) pair with no stored entry — in particular any pair
    that was never marked quota-exceeded, and any worker the registry has never
    seen — is reported available, the instance state is left unchanged, and the
    manager is unchanged except possibly for the creation of an empty
    per-worker record, so a fresh registry never blocks a routing decision. -/
theorem fresh_pair_is_available (mgr : ModelFallbackManager) (w m : String)
    (now : Nat)
    (h : alookup ((get_or_create_instance_status mgr w).1).model_status m = none) :
    (is_model_available ((get_or_create_instance_status mgr w).1) m now).1 = true ∧
    (is_model_available ((get_or_create_instance_status mgr w).1) m now).2
      = (get_or_create_instance_status mgr w).1 ∧
    ((get_or_create_instance_status mgr w).2 = mgr ∨
      ((get_or_create_instance_status mgr w).2).instance_statuses
        = mgr.instance_statuses ++ [(w, { instance_id := w })]) := by
  refine ⟨?_, ?_, ?_⟩
  · unfold is_model_available
    simp [h]
  · unfold is_model_available
    simp [h]
  · unfold get_or_create_instance_status
    cases hl : alookup mgr.instance_statuses w with
    | none => simp
    | some st => simp

/-- Witness for `fresh_pair_is_available` at a concrete fresh registry. -/
theorem fresh_pair_is_available_witness :
    alookup ((get_or_create_instance_status { instance_statuses := [] } "w1").1).model_status
        "gemini-2.5-pro-preview-03-25" = none ∧
    (is_model_available ((get_or_create_instance_status { instance_statuses := [] } "w1").1)
        "gemini-2.5-pro-preview-03-25" 1000).1 = true :=
  ⟨by decide,
   (fresh_pair_is_available { instance_statuses := [] } "w1"
      "gemini-2.5-pro-preview-03-25" 1000 (by decide)).1⟩

/-- C2 counterexample: the claim says the pair is restored as soon as
    `now − quotaExceededAt ≥ cooldown`; the code restores only strictly after
    the cooldown (`time.time() - quota_exceeded_time > 3600`).  Marking at
    time 100 and reading at time 3700 has `3700 − 100 ≥ 3600`, yet
    `is_model_available` still answers `false`. -/
theorem quota_cooldown_boundary_cex :
    3600 ≤ 3700 - 100 ∧
    (is_model_available
        (mark_model_quota_exceeded { instance_id := "w" } "m" "quota" 100)
        "m" 3700).1 = false := by
  constructor
  · decide
  · rfl

/-- C2 (amended): after `mark_model_quota_exceeded` at time `tmark > 0` the
    stored entry is `available=false`, `quota_exceeded_time=tmark`,
    `error_count` bumped, message stored; a later `is_model_available` read at
    time `tcheck` answers `true` iff strictly more than the 3600 s cooldown has
    elapsed; when it answers `true` it restores the entry (flag true, stamp
    cleared, error count kept), and when it answers `false` it leaves the state
    unchanged. -/
theorem quota_mark_then_check (st : InstanceModelStatus) (m msg : String)
    (tmark tcheck : Nat) (hpos : 0 < tmark) :
    (alookup (mark_model_quota_exceeded st m msg tmark).model_status m =
      some { available := false, quota_exceeded_time := some tmark,
             error_count := ((alookup st.model_status m).getD {}).error_count + 1,
             last_error_message := msg }) ∧
    ((is_model_available (mark_model_quota_exceeded st m msg tmark) m tcheck).1
      = decide (3600 < tcheck - tmark)) ∧
    (3600 < tcheck - tmark →
      alookup ((is_model_available (mark_model_quota_exceeded st m msg tmark) m
          tcheck).2).model_status m =
        some { available := true, quota_exceeded_time := none,
               error_count := ((alookup st.model_status m).getD {}).error_count + 1,
               last_error_message := msg }) ∧
    (¬ 3600 < tcheck - tmark →
      (is_model_available (mark_model_quota_exceeded st m msg tmark) m tcheck).2
        = mark_model_quota_exceeded st m msg tmark) := by
  have hne : ¬ tmark = 0 := hpos.ne'
  have hmark : alookup (mark_model_quota_exceeded st m msg tmark).model_status m =
      some { available := false, quota_exceeded_time := some tmark,
             error_count := ((alookup st.model_status m).getD {}).error_count + 1,
             last_error_message := msg } := by
    unfold mark_model_quota_exceeded
    simp [alookup_aupdate_self]
  refine ⟨hmark, ?_, ?_, ?_⟩
  · unfold is_model_available
    simp only [hmark]
    by_cases hc : 3600 < tcheck - tmark
    · simp [pyTruthyTime, hne, hc]
    · simp [pyTruthyTime, hne, hc]
  · intro hc
    unfold is_model_available
    simp only [hmark]
    simp [pyTruthyTime, hne, hc, alookup_aupdate_self]
  · intro hc
    unfold is_model_available
    simp only [hmark]
    simp [pyTruthyTime, hne, hc]

/-- The chain walk returns the first chain entry available in the entry state:
    checks that answer `false` do not modify the state, so threading is
    invisible. -/
theorem walk_fallback_chain_eq_find (st : InstanceModelStatus)
    (chain : List String) (now : Nat) :
    (walk_fallback_chain st chain now).1 =
      chain.find? (fun m => (is_model_available st m now).1) := by
  induction chain with
  | nil => simp [walk_fallback_chain]
  | cons m rest ih =>
      unfold walk_fallback_chain
      dsimp only
      by_cases hm : (is_model_available st m now).1 = true
      · simp [hm, List.find?_cons]
      · have hm' : (is_model_available st m now).1 = false := by
          simpa using hm
        rw [hm', is_model_available_false_state st m now hm']
        simp [ih, List.find?_cons, hm']

/-- C3: `get_fallback_model` returns the requested model when the registry says
    it is available for that worker; otherwise it walks the statically
    configured fallback chain (empty when the model has no configured chain) in
    order and returns the first available model; and it returns `none` exactly
    when the requested model and every model of its chain are unavailable. -/
theorem get_fallback_model_spec (mgr : ModelFallbackManager)
    (iid orig : String) (now : Nat) :
    ((get_fallback_model mgr iid orig now).1 =
      (if (is_model_available ((get_or_create_instance_status mgr iid).1) orig now).1
       then some orig
       else ((alookup MODEL_FALLBACK_MAP orig).getD []).find?
              (fun m => (is_model_available ((get_or_create_instance_status mgr iid).1) m now).1))) ∧
    ((get_fallback_model mgr iid orig now).1 = none ↔
      ((is_model_available ((get_or_create_instance_status mgr iid).1) orig now).1 = false ∧
       ∀ m ∈ (alookup MODEL_FALLBACK_MAP orig).getD [],
         (is_model_available ((get_or_create_instance_status mgr iid).1) m now).1 = false)) := by
  set st := (get_or_create_instance_status mgr iid).1 with hst
  have hmain : (get_fallback_model mgr iid orig now).1 =
      (if (is_model_available st orig now).1 then some orig
       else ((alookup MODEL_FALLBACK_MAP orig).getD []).find?
              (fun m => (is_model_available st m now).1)) := by
    unfold get_fallback_model
    dsimp only
    rw [← hst]
    by_cases h1 : (is_model_available st orig now).1 = true
    · simp [h1]
    · have h1' : (is_model_available st orig now).1 = false := by
        simpa using h1
      rw [h1', is_model_available_false_state st orig now h1']
      simp [walk_fallback_chain_eq_find]
  refine ⟨hmain, ?_⟩
  rw [hmain]
  by_cases h1 : (is_model_available st orig now).1 = true
  · simp [h1]
  · have h1' : (is_model_available st orig now).1 = false := by simpa using h1
    simp [h1', List.find?_eq_none]

/-! ### `/health` endpoint -/

/-- C5 counterexample: with one unhealthy instance `/health` still replies with
    HTTP status 200 (the handler returns a plain dict, which FastAPI wraps in a
    200 response regardless of the fleet state), so "200 iff at least one
    healthy worker" is false. -/
theorem health_check_200_cex :
    ¬ ((health_check [{ id := "A", port := 9222, weight := 1, enabled := true,
                        max_concurrent := 3, status := "unhealthy" }]).1 = 200 ↔
       0 < healthyCount [{ id := "A", port := 9222, weight := 1, enabled := true,
                           max_concurrent := 3, status := "unhealthy" }]) := by
  decide

/-- C5 (amended): `GET /health` always responds with HTTP status 200; the
    *body* reports `status = "healthy"` iff at least one worker is healthy,
    `healthy` counts the currently healthy workers, and
    `total = healthy + unhealthy`. -/
theorem health_check_spec (instances : List BackendInstance) :
    (health_check instances).1 = 200 ∧
    (health_check instances).2.total = instances.length ∧
    (health_check instances).2.healthy = healthyCount instances ∧
    (health_check instances).2.healthy + (health_check instances).2.unhealthy
      = (health_check instances).2.total ∧
    ((health_check instances).2.status = "healthy" ↔ 0 < healthyCount instances) := by
  have hle : healthyCount instances ≤ instances.length := by
    unfold healthyCount
    exact List.length_filter_le _ _
  unfold health_check
  refine ⟨rfl, rfl, rfl, ?_, ?_⟩
  · dsimp only
    exact Nat.add_sub_cancel' hle
  · dsimp only
    by_cases h : 0 < healthyCount instances
    · simp [h]
    · rw [if_neg h]
      constructor
      · intro hcontra
        exact absurd hcontra (by decide)
      · intro hcontra
        exact absurd hcontra h

/-! ### `/v1/chat/completions` concurrency invariant (C1) -/

theorem length_listModify {α : Type} (l : List α) (i : Nat) (f : α → α) :
    (listModify l i f).length = l.length := by
  induction l generalizing i with
  | nil => rfl
  | cons x rest ih =>
      cases i with
      | zero => rfl
      | succ n => simp [listModify, ih]

theorem getElem?_listModify {α : Type} (l : List α) (i j : Nat) (f : α → α) :
    (listModify l i f)[j]? = if i = j then (l[j]?).map f else l[j]? := by
  induction l generalizing i j with
  | nil => simp [listModify]
  | cons x rest ih =>
      cases i with
      | zero =>
          cases j with
          | zero => simp [listModify]
          | succ m => simp [listModify]
      | succ n =>
          cases j with
          | zero => simp [listModify]
          | succ m =>
              simp only [listModify, List.getElem?_cons_succ, ih]
              by_cases h : n = m
              · simp [h]
              · simp [h, fun hh : n + 1 = m + 1 => h (Nat.succ_injective hh)]

/-- Membership in `eligIndices` unpacks to a position holding an instance
    that passes the availability filter (in particular
    `current_concurrent < max_concurrent`: selection only returns workers
    under their concurrency cap). -/
theorem mem_eligIndices (s : RouterState) (j : Nat) (hmem : j ∈ eligIndices s) :
    j < s.instances.length ∧
    ∃ inst, s.instances[j]? = some inst ∧ instAvailable inst = true := by
  unfold eligIndices at hmem
  obtain ⟨hrange, hpred⟩ := List.mem_filter.mp hmem
  have hj : j < s.instances.length := List.mem_range.mp hrange
  refine ⟨hj, ?_⟩
  cases hget : s.instances[j]? with
  | none => rw [hget] at hpred; simp at hpred
  | some inst => rw [hget] at hpred; exact ⟨inst, rfl, hpred⟩

/-- Each completion path (buffered finish, stream close, forwarding error)
    consumes one in-flight token and decrements once, preserving the
    invariant. -/
theorem completeAt_inv (s : RouterState) (i : Nat) (failed : Bool)
    (h : RouterInv s) : RouterInv (completeAt s i failed) := by
  obtain ⟨hbound, hcount⟩ := h
  unfold completeAt
  by_cases hin : i ∈ s.inflight
  · rw [if_pos hin]
    have hilt : i < s.instances.length := hbound i hin
    have hcpos : 0 < s.inflight.count i := List.count_pos_iff.mpr hin
    constructor
    · intro k hk
      rw [length_listModify]
      exact hbound k (List.mem_of_mem_erase hk)
    · intro k hk
      rw [length_listModify] at hk
      have hk' := hcount k hk
      unfold instAt at hk' ⊢
      dsimp only
      rw [getElem?_listModify]
      by_cases hik : i = k
      · subst hik
        rw [if_pos rfl]
        cases hget : s.instances[i]? with
        | none =>
            exfalso
            have h2 := List.getElem?_eq_getElem hilt
            rw [hget] at h2
            exact Option.noConfusion h2
        | some inst =>
            rw [hget] at hk'
            dsimp only [Option.getD_some] at hk'
            dsimp only [Option.map_some', Option.getD_some]
            refine ⟨?_, ?_⟩
            · show inst.current_concurrent - 1 = _
              rw [List.count_erase_self, hk'.1]
              have h1 : (1 : Nat) ≤ s.inflight.count i := hcpos
              push_cast [Nat.cast_sub h1]
              ring
            · show inst.current_concurrent - 1 ≤ inst.max_concurrent
              calc inst.current_concurrent - 1 ≤ inst.current_concurrent :=
                    sub_le_self _ (by norm_num)
                _ ≤ inst.max_concurrent := hk'.2
      · rw [if_neg hik]
        constructor
        · rw [List.count_erase_of_ne (fun hh => hik hh.symm)]
          exact hk'.1
        · exact hk'.2
  · rw [if_neg hin]
    exact ⟨hbound, hcount⟩

/-- The step function preserves the router invariant. -/
theorem routerStep_inv (s : RouterState) (e : RouterEvent) (h : RouterInv s) :
    RouterInv (routerStep s e) := by
  obtain ⟨hbound, hcount⟩ := h
  cases e with
  | dispatch =>
      unfold routerStep
      dsimp only
      cases hj : (eligIndices s)[s.rr_index % (eligIndices s).length]? with
      | none => exact ⟨hbound, hcount⟩
      | some j =>
          have hmem : j ∈ eligIndices s := List.getElem?_mem hj
          obtain ⟨hjlt, inst, hinst, havail⟩ := mem_eligIndices s j hmem
          have hcc : inst.current_concurrent < inst.max_concurrent := by
            have := havail
            simp only [instAvailable, Bool.and_eq_true, decide_eq_true_eq] at this
            exact this.2
          constructor
          · intro k hk
            rw [length_listModify]
            rcases List.mem_cons.mp hk with hkj | hkin
            · exact hkj ▸ hjlt
            · exact hbound k hkin
          · intro k hk
            rw [length_listModify] at hk
            have hk' := hcount k hk
            unfold instAt at hk' ⊢
            rw [getElem?_listModify]
            by_cases hkj : j = k
            · subst hkj
              rw [if_pos rfl, hinst]
              dsimp only [Option.map_some', Option.getD_some]
              rw [hinst] at hk'
              dsimp only [Option.getD_some] at hk'
              refine ⟨?_, ?_⟩
              · show inst.current_concurrent + 1 = _
                rw [List.count_cons_self, hk'.1]
                push_cast
                ring
              · show inst.current_concurrent + 1 ≤ inst.max_concurrent
                exact Int.add_one_le_iff.mpr hcc
            · rw [if_neg hkj]
              constructor
              · rw [List.count_cons_of_ne (fun hh => hkj hh.symm)]
                exact hk'.1
              · exact hk'.2
  | finishBuffered i =>
      exact completeAt_inv s i false ⟨hbound, hcount⟩
  | finishStream i =>
      exact completeAt_inv s i false ⟨hbound, hcount⟩
  | forwardError i =>
      exact completeAt_inv s i true ⟨hbound, hcount⟩
  | probeResult i st =>
      unfold routerStep
      constructor
      · intro k hk
        rw [length_listModify]
        exact hbound k hk
      · intro k hk
        rw [length_listModify] at hk
        have hk' := hcount k hk
        unfold instAt at hk' ⊢
        rw [getElem?_listModify]
        by_cases hik : i = k
        · subst hik
          cases hget : s.instances[i]? with
          | none =>
              rw [hget] at hk'
              simp only [hget, if_pos rfl, Option.map_none]
              exact hk'
          | some inst =>
              rw [hget] at hk'
              simp only [hget, if_pos rfl, Option.map_some', Option.getD_some]
              exact hk'
        · rw [if_neg hik]
          exact hk'

/-- The invariant is preserved along any event sequence. -/
theorem routerRun_inv (es : List RouterEvent) (s : RouterState)
    (h : RouterInv s) : RouterInv (routerRun s es) := by
  induction es generalizing s with
  | nil => exact h
  | cons e rest ih => exact ih (routerStep s e) (routerStep_inv s e h)

/-- C1: along every `/v1/chat/completions` lifecycle (dispatches that bump the
    chosen instance's counter before forwarding, completions — buffered finish,
    stream close, or forwarding error — that each consume one in-flight request
    and decrement once, and probe updates), starting from a state satisfying
    the router invariant, every instance satisfies
    `0 ≤ current_concurrent ≤ max_concurrent`; the round-robin selection only
    ever returns instances with `current_concurrent < max_concurrent`
    (`mem_eligIndices`). -/
theorem chat_completions_concurrency (s0 : RouterState) (es : List RouterEvent)
    (h0 : RouterInv s0) (j : Nat)
    (hj : j < (routerRun s0 es).instances.length) :
    0 ≤ (instAt (routerRun s0 es) j).current_concurrent ∧
    (instAt (routerRun s0 es) j).current_concurrent
      ≤ (instAt (routerRun s0 es) j).max_concurrent := by
  have hinv := routerRun_inv es s0 h0
  obtain ⟨-, hcount⟩ := hinv
  obtain ⟨heq, hle⟩ := hcount j hj
  constructor
  · rw [heq]
    exact Int.natCast_nonneg _
  · exact hle

/-- Witness for `chat_completions_concurrency`: one healthy single-slot
    instance, a dispatch followed by a stream close. -/
theorem chat_completions_concurrency_witness :
    RouterInv { instances := [{ id := "A", port := 3100, weight := 1,
                                enabled := true, max_concurrent := 1,
                                current_concurrent := 0, status := "healthy" }],
                rr_index := 0, inflight := [] } ∧
    0 < (routerRun { instances := [{ id := "A", port := 3100, weight := 1,
                                     enabled := true, max_concurrent := 1,
                                     current_concurrent := 0, status := "healthy" }],
                     rr_index := 0, inflight := [] }
          [RouterEvent.dispatch, RouterEvent.finishStream 0]).instances.length ∧
    (0 ≤ (instAt (routerRun { instances := [{ id := "A", port := 3100, weight := 1,
                                              enabled := true, max_concurrent := 1,
                                              current_concurrent := 0, status := "healthy" }],
                              rr_index := 0, inflight := [] }
              [RouterEvent.dispatch, RouterEvent.finishStream 0]) 0).current_concurrent ∧
     (instAt (routerRun { instances := [{ id := "A", port := 3100, weight := 1,
                                          enabled := true, max_concurrent := 1,
                                          current_concurrent := 0, status := "healthy" }],
                          rr_index := 0, inflight := [] }
              [RouterEvent.dispatch, RouterEvent.finishStream 0]) 0).current_concurrent
       ≤ (instAt (routerRun { instances := [{ id := "A", port := 3100, weight := 1,
                                              enabled := true, max_concurrent := 1,
                                              current_concurrent := 0, status := "healthy" }],
                              rr_index := 0, inflight := [] }
              [RouterEvent.dispatch, RouterEvent.finishStream 0]) 0).max_concurrent) :=
  ⟨by unfold RouterInv; decide, by decide,
   chat_completions_concurrency _ [RouterEvent.dispatch, RouterEvent.finishStream 0]
     (by unfold RouterInv; decide) 0 (by decide)⟩

/-! ### Multi-instance route_request retry discipline (C8) -/

/-- One scan step can only keep the accumulator's pick or propose the scanned
    candidate. -/
theorem leastLoadedStep_fst (mgr : MIManager) (acc : Option String × Option ℚ)
    (a x : String) (h : (leastLoadedStep mgr acc a).1 = some x) :
    acc.1 = some x ∨ x = a := by
  unfold leastLoadedStep at h
  cases hg : get_instance_state mgr a with
  | none => rw [hg] at h; exact .inl h
  | some st =>
      rw [hg] at h
      dsimp only at h
      cases hacc : acc.2 with
      | none => rw [hacc] at h; simp at h; exact .inr h.symm
      | some b =>
          rw [hacc] at h
          dsimp only at h
          by_cases hlt : (st.active_requests : ℚ) / (st.max_concurrent_requests : ℚ) < b
          · rw [if_pos hlt] at h; simp at h; exact .inr h.symm
          · rw [if_neg hlt] at h; exact .inl h

/-- The scan's pick is always one of the scanned candidates. -/
theorem leastLoadedStep_fold_mem (mgr : MIManager) (l : List String) :
    ∀ (acc : Option String × Option ℚ) (x : String),
      ((l.foldl (leastLoadedStep mgr) acc).1 = some x) →
      acc.1 = some x ∨ x ∈ l := by
  induction l with
  | nil => intro acc x h; exact .inl h
  | cons a rest ih =>
      intro acc x h
      rcases ih (leastLoadedStep mgr acc a) x h with h1 | h2
      · rcases leastLoadedStep_fst mgr acc a x h1 with h3 | h4
        · exact .inl h3
        · exact .inr (h4 ▸ List.mem_cons_self a rest)
      · exact .inr (List.mem_cons_of_mem a h2)

/-- `_select_instance_least_loaded` returns a member of its candidate list. -/
theorem select_instance_least_loaded_mem (mgr : MIManager)
    (avail : List String) (b : String)
    (h : select_instance_least_loaded mgr avail = some b) : b ∈ avail := by
  cases avail with
  | nil => simp [select_instance_least_loaded] at h
  | cons a rest =>
      unfold select_instance_least_loaded at h
      dsimp only at h
      cases hr : ((a :: rest).foldl (leastLoadedStep mgr) (none, none)).1 with
      | none =>
          rw [hr] at h
          dsimp only at h
          exact (Option.some_inj.mp h) ▸ List.mem_cons_self a rest
      | some c =>
          rw [hr] at h
          dsimp only at h
          by_cases hc : c = ""
          · rw [if_pos hc] at h
            exact (Option.some_inj.mp h) ▸ List.mem_cons_self a rest
          · rw [if_neg hc] at h
            rcases leastLoadedStep_fold_mem mgr (a :: rest) (none, none) c hr with h1 | h2
            · exact Option.noConfusion h1
            · exact (Option.some_inj.mp h) ▸ h2

/-- The failover loop appends, to the already-tried list, a subsequence of the
    remaining candidates other than the selected one; a returned instance is
    one of the newly tried ones. -/
theorem failover_loop_spec (mA : String → String → Bool)
    (model : Option String) (sel : String) (rem : List String) :
    ∀ (mgr : MIManager) (tried : List String),
      ∃ l, (failover_loop mA model sel mgr rem tried).tried = tried ++ l ∧
        l.Sublist (rem.filter (fun x => decide (x ≠ sel))) ∧
        (∀ w, (failover_loop mA model sel mgr rem tried).result = some w →
          w ∈ l) := by
  induction rem with
  | nil =>
      intro mgr tried
      exact ⟨[], by simp [failover_loop], List.nil_sublist _, by
        intro w hw
        simp [failover_loop] at hw⟩
  | cons iid rest ih =>
      intro mgr tried
      by_cases hsel : iid = sel
      · obtain ⟨l, hl1, hl2, hl3⟩ := ih mgr tried
        refine ⟨l, ?_, ?_, ?_⟩
        · simpa [failover_loop, hsel] using hl1
        · have : (iid :: rest).filter (fun x => decide (x ≠ sel))
              = rest.filter (fun x => decide (x ≠ sel)) := by
            simp [List.filter_cons, hsel]
          rw [this]
          exact hl2
        · intro w hw
          apply hl3
          simpa [failover_loop, hsel] using hw
      · have hfil : (iid :: rest).filter (fun x => decide (x ≠ sel))
            = iid :: rest.filter (fun x => decide (x ≠ sel)) := by
          simp [List.filter_cons, hsel]
        by_cases htry : (try_route_to_instance mgr mA iid model).1 = true
        · refine ⟨[iid], ?_, ?_, ?_⟩
          · simp [failover_loop, hsel, htry]
          · rw [hfil]
            exact (List.nil_sublist _).cons₂ iid
          · intro w hw
            simp [failover_loop, hsel, htry] at hw
            simp [hw]
        · obtain ⟨l, hl1, hl2, hl3⟩ :=
            ih (try_route_to_instance mgr mA iid model).2 (tried ++ [iid])
          have htry' : (try_route_to_instance mgr mA iid model).1 = false := by
            simpa using htry
          refine ⟨iid :: l, ?_, ?_, ?_⟩
          · rw [show tried ++ iid :: l = (tried ++ [iid]) ++ l by simp]
            simpa [failover_loop, hsel, htry'] using hl1
          · rw [hfil]
            exact hl2.cons₂ iid
          · intro w hw
            have : (failover_loop mA model sel
                (try_route_to_instance mgr mA iid model).2 rest
                (tried ++ [iid])).result = some w := by
              simpa [failover_loop, hsel, htry'] using hw
            exact List.mem_cons_of_mem iid (hl3 w this)

/-- Removing a present element by filtering strictly shrinks the list. -/
theorem length_filter_ne_lt (l : List String) (sel : String) (h : sel ∈ l) :
    (l.filter (fun x => decide (x ≠ sel))).length < l.length := by
  induction l with
  | nil => cases h
  | cons a rest ih =>
      by_cases ha : a = sel
      · have : (a :: rest).filter (fun x => decide (x ≠ sel))
            = rest.filter (fun x => decide (x ≠ sel)) := by
          simp [List.filter_cons, ha]
        rw [this]
        exact Nat.lt_succ_of_le (List.length_filter_le _ _)
      · have hmem : sel ∈ rest := by
          rcases List.mem_cons.mp h with h1 | h2
          · exact absurd h1.symm ha
          · exact h2
        have : (a :: rest).filter (fun x => decide (x ≠ sel))
            = a :: rest.filter (fun x => decide (x ≠ sel)) := by
          simp [List.filter_cons, ha]
        rw [this]
        exact Nat.succ_lt_succ (ih hmem)

/-- With unique instance ids, the available list has no duplicates. -/
theorem get_available_instances_nodup (mgr : MIManager)
    (h : (mgr.instances.map Prod.fst).Nodup) :
    (get_available_instances mgr).Nodup := by
  unfold get_available_instances
  exact h.sublist ((List.filter_sublist _).map Prod.fst)

/-- C8 counterexample: `RequestContext`'s `max_retries` field defaults to 3,
    not to the claimed 2. -/
theorem request_context_max_retries_cex :
    ({ request_id := "r", instance_id := none, model_id := none,
       started_at := 0, client_ip := "", user_agent := "",
       routing_strategy := .least_loaded } : RequestContext).max_retries = 3 ∧
    ¬ ({ request_id := "r", instance_id := none, model_id := none,
         started_at := 0, client_ip := "", user_agent := "",
         routing_strategy := .least_loaded } : RequestContext).max_retries = 2 := by
  decide

/-- C8 (amended): with no preferred instance, `route_request` hands the
    request to `_try_route_to_instance` for the least-loaded selection and, on
    failure, for each other model-supporting available instance once
    (failover): the tried instances are pairwise distinct available instances,
    their number is bounded by the number of available instances — not by
    `maxRetries`, which is never consulted and defaults to 3 — and the
    returned worker is one of the tried instances. -/
theorem route_request_retry_spec (mgr : MIManager)
    (mA : String → String → Bool) (model : Option String)
    (hids : (mgr.instances.map Prod.fst).Nodup) :
    (route_request mgr mA model none).tried.Nodup ∧
    (route_request mgr mA model none).tried.length
      ≤ (get_available_instances mgr).length ∧
    (∀ t ∈ (route_request mgr mA model none).tried,
       t ∈ get_available_instances mgr) ∧
    (∀ w, (route_request mgr mA model none).result = some w →
       w ∈ (route_request mgr mA model none).tried) := by
  have havnd : (get_available_instances mgr).Nodup :=
    get_available_instances_nodup mgr hids
  unfold route_request
  dsimp only
  cases hav : get_available_instances mgr with
  | nil =>
      refine ⟨List.nodup_nil, ?_, ?_, ?_⟩
      · simp
      · intro t ht; simp at ht
      · intro w hw; simp at hw
  | cons a as =>
      rw [hav] at havnd
      dsimp only
      set filtered := (match model with
        | some m => (a :: as).filter (fun iid => mA iid m)
        | none => a :: as) with hfil
      have hfilsub : filtered.Sublist (a :: as) := by
        rw [hfil]
        cases model with
        | none => exact List.Sublist.refl _
        | some m => exact List.filter_sublist _
      have hfilnd : filtered.Nodup := havnd.sublist hfilsub
      by_cases hempty : (model.isSome && filtered.isEmpty) = true
      · rw [if_pos hempty]
        refine ⟨List.nodup_nil, by simp, ?_, ?_⟩
        · intro t ht; simp at ht
        · intro w hw; simp at hw
      · rw [if_neg hempty]
        cases hsel : select_instance_least_loaded mgr filtered with
        | none =>
            refine ⟨List.nodup_nil, by simp, ?_, ?_⟩
            · intro t ht; simp at ht
            · intro w hw; simp at hw
        | some selected =>
            dsimp only
            simp only [List.nil_append]
            have hselmem : selected ∈ filtered :=
              select_instance_least_loaded_mem mgr filtered selected hsel
            have hselav : selected ∈ a :: as := hfilsub.mem hselmem
            have hlenpos : 0 < (a :: as).length := by simp
            by_cases htry : (try_route_to_instance mgr mA selected model).1 = true
            · rw [if_pos htry]
              refine ⟨List.nodup_singleton _, ?_, ?_, ?_⟩
              · simp
              · intro t ht
                simp at ht
                rw [ht]
                exact hselav
              · intro w hw
                simp at hw ⊢
                exact hw.symm
            · rw [if_neg htry]
              obtain ⟨l, hl1, hl2, hl3⟩ :=
                failover_loop_spec mA model selected filtered
                  (try_route_to_instance mgr mA selected model).2 [selected]
              have hlsubfil : l.Sublist filtered :=
                hl2.trans (List.filter_sublist _)
              have hlnotsel : ∀ x ∈ l, x ≠ selected := by
                intro x hx
                have hxf := hl2.mem hx
                have := List.of_mem_filter hxf
                simpa using this
              refine ⟨?_, ?_, ?_, ?_⟩
              · rw [hl1]
                simp only [List.singleton_append, List.nodup_cons]
                refine ⟨?_, hfilnd.sublist hlsubfil⟩
                intro hmem
                exact (hlnotsel selected hmem) rfl
              · rw [hl1]
                have h1 : l.length
                    ≤ (filtered.filter (fun x => decide (x ≠ selected))).length :=
                  hl2.length_le
                have h2 : (filtered.filter (fun x => decide (x ≠ selected))).length
                    < filtered.length := length_filter_ne_lt filtered selected hselmem
                have h3 : filtered.length ≤ (a :: as).length := hfilsub.length_le
                have h4 : (a :: as).length = as.length + 1 := rfl
                simp only [List.singleton_append, List.length_cons]
                omega
              · intro t ht
                rw [hl1] at ht
                rcases List.mem_append.mp ht with h1 | h2
                · simp at h1
                  rw [h1]
                  exact hselav
                · exact hfilsub.mem (hlsubfil.mem h2)
              · intro w hw
                rw [hl1]
                exact List.mem_append.mpr (.inr (hl3 w hw))

/-- Witness for `route_request_retry_spec`: one ready single-slot instance. -/
theorem route_request_retry_spec_witness :
    ((({ instances := [("i1", { status := MIStatus.ready })] } : MIManager)
        ).instances.map Prod.fst).Nodup ∧
    (route_request { instances := [("i1", { status := MIStatus.ready })] }
        (fun _ _ => true) none none).tried.Nodup ∧
    (route_request { instances := [("i1", { status := MIStatus.ready })] }
        (fun _ _ => true) none none).tried.length
      ≤ (get_available_instances
          { instances := [("i1", { status := MIStatus.ready })] }).length :=
  ⟨by decide,
   (route_request_retry_spec { instances := [("i1", { status := MIStatus.ready })] }
      (fun _ _ => true) none (by decide)).1,
   (route_request_retry_spec { instances := [("i1", { status := MIStatus.ready })] }
      (fun _ _ => true) none (by decide)).2.1⟩

/-! ### Non-stream round trip (C4) -/

/-- C4 counterexample: the worker body `\x7b"a": 1\x7d` (with a space) is
    parsed and re-serialized with compact separators, so the client receives
    `\x7b"a":1\x7d` — not byte-for-byte the worker's body. -/
theorem non_stream_byte_identity_cex :
    forward_non_stream 200 "\x7b\"a\": 1\x7d" = .ok (200, "\x7b\"a\":1\x7d") ∧
    ¬ ("\x7b\"a\":1\x7d" : String) = "\x7b\"a\": 1\x7d" :=
  ⟨rfl, by decide⟩

/-- C4 (amended): for every non-streaming request forwarded to a worker whose
    body parses as JSON, the client receives the worker's status code and the
    worker's body re-serialized in compact form
    (`json.dumps(json.loads(body), separators=(",", ":"))`) — equal to the
    worker's body as a JSON value but byte-for-byte identical only when that
    body is already compactly serialized. -/
theorem non_stream_forward_spec (status : Nat) (body : String) (v : JVal)
    (h : json_loads body = some v) :
    forward_non_stream status body = .ok (status, json_dumps v) ∧
    (json_dumps v = body → forward_non_stream status body = .ok (status, body)) := by
  unfold forward_non_stream
  rw [h]
  exact ⟨rfl, fun hb => by dsimp only; rw [hb]⟩

/-- Witness for `non_stream_forward_spec` at the worker body `"[1, 2]"`. -/
theorem non_stream_forward_spec_witness :
    json_loads "[1, 2]" = some (.jarr [.jnum 1, .jnum 2]) ∧
    forward_non_stream 200 "[1, 2]"
      = .ok (200, json_dumps (.jarr [.jnum 1, .jnum 2])) :=
  ⟨rfl, (non_stream_forward_spec 200 "[1, 2]" (.jarr [.jnum 1, .jnum 2]) rfl).1⟩

/-! ### `HashStrategy` routing (C7) -/

/-- The availability filter is idempotent. -/
theorem filter_instAvailable_idem (l : List BackendInstance) :
    (l.filter instAvailable).filter instAvailable = l.filter instAvailable :=
  List.filter_eq_self.mpr (fun _ ha => List.of_mem_filter ha)

set_option maxRecDepth 100000 in
/-- C7 counterexample: with neither an `Authorization` nor an `X-API-Key`
    header, the code delegates to a fresh round-robin (always the *first*
    available instance) and never hashes the client IP.  With client IP `"a"`
    and two eligible instances, the claimed rule
    `eligible[md5(ip) mod N]` picks index `1` (the MD5 digest of `"a"` is odd)
    while the code returns index `0`. -/
theorem hash_strategy_ip_cex :
    md5HexInt "a" % 2 = 1 ∧
    hashGetInstance { client_ip := "a" }
        [{ id := "w0", port := 3100, weight := 1, enabled := true,
           max_concurrent := 3, current_concurrent := 0, status := "healthy" },
         { id := "w1", port := 3101, weight := 1, enabled := true,
           max_concurrent := 3, current_concurrent := 0, status := "healthy" }]
      = some { id := "w0", port := 3100, weight := 1, enabled := true,
               max_concurrent := 3, current_concurrent := 0, status := "healthy" } ∧
    ([{ id := "w0", port := 3100, weight := 1, enabled := true,
        max_concurrent := 3, current_concurrent := 0, status := "healthy" },
      { id := "w1", port := 3101, weight := 1, enabled := true,
        max_concurrent := 3, current_concurrent := 0, status := "healthy" }].filter
        instAvailable)[md5HexInt "a" %
          ([{ id := "w0", port := 3100, weight := 1, enabled := true,
              max_concurrent := 3, current_concurrent := 0, status := "healthy" },
            { id := "w1", port := 3101, weight := 1, enabled := true,
              max_concurrent := 3, current_concurrent := 0, status := "healthy" }].filter
              instAvailable).length]?
      = some { id := "w1", port := 3101, weight := 1, enabled := true,
               max_concurrent := 3, current_concurrent := 0, status := "healthy" } ∧
    ¬ ({ id := "w0", port := 3100, weight := 1, enabled := true,
         max_concurrent := 3, current_concurrent := 0,
         status := "healthy" } : BackendInstance)
      = { id := "w1", port := 3101, weight := 1, enabled := true,
          max_concurrent := 3, current_concurrent := 0, status := "healthy" } := by
  decide

/-- C7 (amended): the client key is the bearer token when the `Authorization`
    header starts with `"Bearer "`, else a non-empty `X-API-Key` header; when
    the key is *truthy* (non-empty) the selected worker sits at position
    `md5HexInt key % N` of the eligible list (128-bit MD5 digest mod N); when
    the key is absent or empty (no headers, or a bare `"Bearer "` header) the
    request IP is *not* hashed — a fresh round-robin picks the first eligible
    instance.  Same headers and same eligible list still route to the same
    worker. -/
theorem hash_strategy_spec (r : HttpRequest) (instances : List BackendInstance)
    (h : instances.filter instAvailable ≠ []) :
    hashGetInstance r instances =
      (match get_api_key r with
       | some key =>
           if key.data.isEmpty then (instances.filter instAvailable)[0]?
           else
             (instances.filter instAvailable)[md5HexInt key %
               (instances.filter instAvailable).length]?
       | none => (instances.filter instAvailable)[0]?) := by
  unfold hashGetInstance
  cases havail : instances.filter instAvailable with
  | nil => exact absurd havail h
  | cons a as =>
      dsimp only
      have hidem : (a :: as).filter instAvailable = a :: as := by
        rw [← havail]
        exact filter_instAvailable_idem instances
      cases hkey : get_api_key r with
      | none =>
          unfold roundRobinGetInstance
          rw [hidem]
          dsimp only
          rw [Nat.zero_mod]
      | some key =>
          dsimp only
          by_cases hemp : key.data.isEmpty = true
          · rw [if_pos hemp, if_pos hemp]
            unfold roundRobinGetInstance
            rw [hidem]
            dsimp only
            rw [Nat.zero_mod]
          · rw [if_neg hemp, if_neg hemp]

set_option maxRecDepth 100000 in
/-- Witness for `hash_strategy_spec`: a bearer-token request against a single
    available instance, and an *empty* bearer token (`"Bearer "`) against four
    available instances, which round-robins to the first instead of hashing
    the empty key (`md5HexInt "" % 4 = 2` would pick `w2`). -/
theorem hash_strategy_spec_witness :
    ([{ id := "w0", port := 3100, weight := 1, enabled := true,
        max_concurrent := 3, current_concurrent := 0,
        status := "healthy" }].filter instAvailable ≠ []) ∧
    hashGetInstance { authorization := some "Bearer k" }
        [{ id := "w0", port := 3100, weight := 1, enabled := true,
           max_concurrent := 3, current_concurrent := 0, status := "healthy" }]
      = ([{ id := "w0", port := 3100, weight := 1, enabled := true,
            max_concurrent := 3, current_concurrent := 0,
            status := "healthy" }].filter instAvailable)[md5HexInt "k" %
          ([{ id := "w0", port := 3100, weight := 1, enabled := true,
              max_concurrent := 3, current_concurrent := 0,
              status := "healthy" }].filter instAvailable).length]? ∧
    md5HexInt "" % 4 = 2 ∧
    hashGetInstance { authorization := some "Bearer " }
        [{ id := "w0", port := 3100, weight := 1, enabled := true,
           max_concurrent := 3, current_concurrent := 0, status := "healthy" },
         { id := "w1", port := 3101, weight := 1, enabled := true,
           max_concurrent := 3, current_concurrent := 0, status := "healthy" },
         { id := "w2", port := 3102, weight := 1, enabled := true,
           max_concurrent := 3, current_concurrent := 0, status := "healthy" },
         { id := "w3", port := 3103, weight := 1, enabled := true,
           max_concurrent := 3, current_concurrent := 0, status := "healthy" }]
      = some { id := "w0", port := 3100, weight := 1, enabled := true,
               max_concurrent := 3, current_concurrent := 0,
               status := "healthy" } :=
  ⟨by decide, by
    rw [hash_strategy_spec { authorization := some "Bearer k" }
        [{ id := "w0", port := 3100, weight := 1, enabled := true,
           max_concurrent := 3, current_concurrent := 0, status := "healthy" }]
        (by decide)]
    decide,
   by decide, by
    rw [hash_strategy_spec { authorization := some "Bearer " }
        [{ id := "w0", port := 3100, weight := 1, enabled := true,
           max_concurrent := 3, current_concurrent := 0, status := "healthy" },
         { id := "w1", port := 3101, weight := 1, enabled := true,
           max_concurrent := 3, current_concurrent := 0, status := "healthy" },
         { id := "w2", port := 3102, weight := 1, enabled := true,
           max_concurrent := 3, current_concurrent := 0, status := "healthy" },
         { id := "w3", port := 3103, weight := 1, enabled := true,
           max_concurrent := 3, current_concurrent := 0, status := "healthy" }]
        (by decide)]
    decide⟩

/-! ### E-mail derivation from auth-profile filenames (C6) -/

/-- C6 counterexample: the code filters **every** purely-numeric token out of
    the domain part (`[p for p in domain_parts if not p.isdigit()]`), not only
    trailing ones: on `a_at_b_1_c.json` the code yields `a@b.c` while the
    claimed rule (discard only trailing numeric tokens) yields `a@b.1.c`. -/
theorem email_trailing_numeric_cex :
    extract_email_from_filename "a_at_b_1_c.json" = "a@b.c" ∧
    extract_email_spec_rule "a_at_b_1_c.json" = "a@b.1.c" ∧
    ¬ extract_email_from_filename "a_at_b_1_c.json"
        = extract_email_spec_rule "a_at_b_1_c.json" := by
  decide

/-- C6 (amended): for every filename whose name (after `".json"` removal)
    contains the marker `_at_`, the derived e-mail joins the tokens before the
    first `at` token with `'.'` as the user part and the tokens after it with
    `'.'` as the domain part, discarding **all** purely-numeric domain tokens
    (not only trailing ones), and joins user and domain with `'@'`. -/
theorem email_extraction_amended (filename : String)
    (h : hasSubstr (pyReplace filename ".json" "").data "_at_".data = true) :
    extract_email_from_filename filename = extract_email_amended_rule filename := by
  unfold extract_email_from_filename extract_email_amended_rule
  rw [if_pos h]

/-- Witness for `email_extraction_amended` at the spec's own example
    filename, which derives `jason.zhangfan@gmail.com`. -/
theorem email_extraction_amended_witness :
    hasSubstr (pyReplace "jason_zhangfan_at_gmail_com_0718_1752807696.json"
        ".json" "").data "_at_".data = true ∧
    extract_email_from_filename "jason_zhangfan_at_gmail_com_0718_1752807696.json"
      = extract_email_amended_rule "jason_zhangfan_at_gmail_com_0718_1752807696.json" ∧
    extract_email_from_filename "jason_zhangfan_at_gmail_com_0718_1752807696.json"
      = "jason.zhangfan@gmail.com" :=
  ⟨by decide, email_extraction_amended _ (by decide), by decide⟩

/-- Witness for `quota_mark_then_check`: mark at time 1, read at time 5000. -/
theorem quota_mark_then_check_witness :
    0 < (1:Nat) ∧
    ((is_model_available
        (mark_model_quota_exceeded { instance_id := "w" } "m" "e" 1) "m" 5000).1
      = decide (3600 < 5000 - 1)) :=
  ⟨by decide,
   (quota_mark_then_check { instance_id := "w" } "m" "e" 1 5000 (by decide)).2.1⟩

end AIstudioProxy
